import Mathlib

/-!
Verification of the `step_by_step_ks` statistical engine
(`src/step_by_step_ks/core.py`) against its specification.

Shallow embedding conventions:
* Real-valued observations are modelled as rationals (`ℚ`); every numeric
  equality claimed by the spec (`0.0`, `1.0`, counts divided by sizes) is
  exactly representable, so no floating-point rounding is relevant to the
  properties proved here.
* `np.sort` is `List.mergeSort (· ≤ ·)` (any ascending sort of the same
  multiset is the same list).
* `scipy.stats.ecdf(data).cdf.evaluate(x)` is the fraction of observations
  `≤ x` (`ecdfEval`).
* `np.argmax` returns the first index attaining the maximum (`argmaxIdx`);
  Python's builtin `max` on a non-empty sequence is `pymax`.
* Python exceptions and `os.abort()` are modelled with `Except`: a
  computation that halts without producing a result returns `.error e`.
* The ambient randomness consumed by `randomize` (i.e. `random.shuffle`)
  is modelled by an explicit oracle `sh : Nat → Nat → List ℚ`, where
  `sh i j` is the result of the `j`-th `randomize(all_x)` call inside
  iteration `i`; theorems quantify over all oracles whose outputs are
  permutations of the pool.
-/

/-- Ascending sort, the model of `np.sort`. -/
def sortQ (l : List ℚ) : List ℚ := l.mergeSort (· ≤ ·)

/-- Model of `scipy.stats.ecdf(sample).cdf.evaluate(x)`: the fraction of
sample values that are `≤ x`. -/
def ecdfEval (sample : List ℚ) (x : ℚ) : ℚ :=
  ((sample.countP (fun v => decide (v ≤ x))) : ℚ) / (sample.length : ℚ)

/-- Python's builtin `max` over a non-empty list (`max(diff)` in
`raw_ks_test`); the value on `[]` is junk (Python raises there, but every
use in the source is on a non-empty list). -/
def pymax : List ℚ → ℚ
  | [] => 0
  | [x] => x
  | x :: y :: t => max x (pymax (y :: t))

/-- Model of `np.argmax`: the first index attaining the maximum. -/
def argmaxIdx : List ℚ → Nat
  | [] => 0
  | [_] => 0
  | x :: y :: t => if x < pymax (y :: t) then argmaxIdx (y :: t) + 1 else 0

/-- The pooled evaluation grid of `raw_ks_test`:
`all_x = np.sort(np.concatenate((data1, data2)))` where both inputs were
already sorted. -/
def ksGrid (data1 data2 : List ℚ) : List ℚ :=
  sortQ (sortQ data1 ++ sortQ data2)

/-- The per-grid-point directional difference
`ecdf1.cdf.evaluate(all_x) - ecdf2.cdf.evaluate(all_x)`. -/
def ksDiff (d1 d2 : List ℚ) (all_x : List ℚ) : List ℚ :=
  all_x.map (fun x => ecdfEval d1 x - ecdfEval d2 x)

/-- Result dictionary of `raw_ks_test`: `{"stat": stat, "location": peak}`. -/
structure KSResult where
  stat : ℚ
  location : ℚ
deriving Repr, DecidableEq

/-- Halting outcome of `raw_ks_test` on an unrecognized alternative: the
source prints a message and calls `os.abort()`, producing no result.  The
spec names this condition `InvalidAlternative`. -/
inductive KSError where
  | invalidAlternative
deriving Repr, DecidableEq

/-- Model of `raw_ks_test(data1, data2, alternative)` (core.py lines
89-110, 129), plotting omitted as a side-effect-only collaborator.  The
two recognized alternative pairs select the direction of the ECDF
difference; any other token halts the computation with no result. -/
def raw_ks_test (data1 data2 : List ℚ) (alternative : String) :
    Except KSError KSResult :=
  let d1 := sortQ data1
  let d2 := sortQ data2
  let all_x := ksGrid data1 data2
  if alternative = "1 less than 2" ∨ alternative = "2 greater than 1" then
    let diff := ksDiff d1 d2 all_x
    .ok ⟨pymax diff, all_x.getD (argmaxIdx diff) 0⟩
  else if alternative = "2 less than 1" ∨ alternative = "1 greater than 2" then
    let diff := ksDiff d2 d1 all_x
    .ok ⟨pymax diff, all_x.getD (argmaxIdx diff) 0⟩
  else
    .error KSError.invalidAlternative

/-- The four direction tokens accepted by `raw_ks_test`. -/
def recognizedAlternative (a : String) : Prop :=
  a = "1 less than 2" ∨ a = "2 greater than 1" ∨
  a = "2 less than 1" ∨ a = "1 greater than 2"

instance (a : String) : Decidable (recognizedAlternative a) := by
  unfold recognizedAlternative; infer_instance

/-- The directional difference list that a recognized alternative selects
inside `raw_ks_test`: the first token pair maps to `F1 − F2`, the second
to `F2 − F1`. -/
def dirKsDiff (data1 data2 : List ℚ) (alternative : String) : List ℚ :=
  if alternative = "1 less than 2" ∨ alternative = "2 greater than 1" then
    ksDiff (sortQ data1) (sortQ data2) (ksGrid data1 data2)
  else
    ksDiff (sortQ data2) (sortQ data1) (ksGrid data1 data2)

/-- Pooled data of the calibrator:
`all_x = list(np.concatenate((data1, data2)))` (core.py line 186). -/
def pooled (data1 data2 : List ℚ) : List ℚ := data1 ++ data2

/-- Halting outcomes of `bootstrap_pvalue`.
* `nameError` models a Python `NameError`: either the slice bound `size12`
  (core.py line 201), a name defined nowhere in the program, or the working
  samples `d1`/`d2` being referenced (line 212) when no branch assigned
  them.
* `zeroDivisionError` models `pvalue = s/nloop` (line 219) with
  `nloop = 0`.
* `invalidAlternative` propagates the halt of `raw_ks_test` on an
  unrecognized direction token.
* `invalidResamplingPolicy` is modelled from the spec: the error the spec
  names for a non-positive iteration count or an unresolvable sizing mode.
  No code path in the source produces it; it is declared so that spec
  statements about it can be expressed. -/
inductive BootErr where
  | nameError
  | zeroDivisionError
  | invalidAlternative
  | invalidResamplingPolicy
deriving Repr, DecidableEq

/-- One iteration of the resampling loop of `bootstrap_pvalue`
(core.py lines 191-213), producing the resampled statistic.  `sh j` is the
result of the `j`-th `randomize(all_x)` call of this iteration.  Mirrors
the source's two sequential `if` blocks: the ratio-preserving block runs
when `respect_ratio` holds, and with `replacement` it raises `NameError`
at `shuffled2[:size12]` (line 201) because `size12` is an undefined name;
the fixed-size block runs when `bootstrap_size` is an `int` and overwrites
`d1`, `d2`; if neither block assigned them, evaluating `d1` at the
`raw_ks_test` call raises `NameError`. -/
def bootstrapBody (size1 : Nat) (alternative : String)
    (respect_ratio replacement : Bool) (bootstrap_size : Option Nat)
    (sh : Nat → List ℚ) : Except BootErr ℚ :=
  if respect_ratio ∧ replacement then
    .error BootErr.nameError
  else
    let ds0 : Option (List ℚ × List ℚ) :=
      if respect_ratio then
        some ((sh 0).take size1, (sh 0).drop size1)
      else
        none
    let k : Nat := if respect_ratio then 1 else 0
    let ds1 : Option (List ℚ × List ℚ) :=
      match bootstrap_size with
      | some b =>
        if replacement then
          some ((sh k).take b, (sh (k + 1)).take b)
        else
          some ((sh k).take b, ((sh k).drop b).take b)
      | none => ds0
    match ds1 with
    | none => .error BootErr.nameError
    | some (d1, d2) =>
      match raw_ks_test d1 d2 alternative with
      | .ok r => .ok r.stat
      | .error _ => .error BootErr.invalidAlternative

/-- The counter `s` after running the loop body for iterations
`0, …, n − 1`, incrementing when `stat >= reference_stat` (core.py lines
216-217); the first failing iteration aborts the whole call. -/
def bootstrapLoop (body : Nat → Except BootErr ℚ) (reference_stat : ℚ) :
    Nat → Except BootErr Nat
  | 0 => .ok 0
  | n + 1 =>
    match bootstrapLoop body reference_stat n with
    | .error e => .error e
    | .ok s =>
      match body n with
      | .error e => .error e
      | .ok stat => .ok (if reference_stat ≤ stat then s + 1 else s)

/-- Model of `bootstrap_pvalue` (core.py lines 185-235), plotting omitted.
`nloop` is an `Int` so that non-positive iteration counts are expressible:
`range(nloop)` runs `nloop.toNat` times, and the final division
`s/nloop` raises `ZeroDivisionError` exactly when `nloop = 0`.  The
statistic distribution list is accumulated only for plotting and does not
affect the returned p-value, so it is not materialized here. -/
def bootstrap_pvalue (data1 data2 : List ℚ) (reference_stat : ℚ)
    (alternative : String) (nloop : Int)
    (respect_ratio replacement : Bool) (bootstrap_size : Option Nat)
    (sh : Nat → Nat → List ℚ) : Except BootErr ℚ :=
  match bootstrapLoop
      (fun i => bootstrapBody data1.length alternative respect_ratio
        replacement bootstrap_size (sh i))
      reference_stat nloop.toNat with
  | .error e => .error e
  | .ok s =>
    if nloop = 0 then .error BootErr.zeroDivisionError
    else .ok ((s : ℚ) / (nloop : ℚ))

/-- Merged result dictionary of `ks_test`: the `raw_ks_test` fields plus
the bootstrap p-value. -/
structure TestResult where
  stat : ℚ
  location : ℚ
  pvalue : ℚ
deriving Repr, DecidableEq

/-- Model of the orchestrator `ks_test` (core.py lines 237-298).  The call
at line 295 passes `alternative`, `nloop`, `replacement` and
`bootstrap_size` on to `bootstrap_pvalue` but does NOT pass
`respect_ratio`; the `bootstrap_respect_ratio` parameter accepted at line
237 is never forwarded, so the calibrator always runs with its default
`respect_ratio=True`. -/
def ks_test (data1 data2 : List ℚ) (alternative : String)
    (bootstrap_loops : Int)
    (bootstrap_respect_ratio bootstrap_replacement : Bool)
    (bootstrap_size : Option Nat) (sh : Nat → Nat → List ℚ) :
    Except BootErr TestResult :=
  match raw_ks_test data1 data2 alternative with
  | .error _ => .error BootErr.invalidAlternative
  | .ok test =>
    match bootstrap_pvalue data1 data2 test.stat alternative
        bootstrap_loops true bootstrap_replacement bootstrap_size sh with
    | .error e => .error e
    | .ok pvalue => .ok ⟨test.stat, test.location, pvalue⟩

instance {ε α : Type} [DecidableEq ε] [DecidableEq α] :
    DecidableEq (Except ε α) := fun a b =>
  match a, b with
  | .ok x, .ok y =>
    if h : x = y then .isTrue (by rw [h])
    else .isFalse (by intro hc; cases hc; exact h rfl)
  | .error e, .error f =>
    if h : e = f then .isTrue (by rw [h])
    else .isFalse (by intro hc; cases hc; exact h rfl)
  | .ok _, .error _ => .isFalse (by intro hc; cases hc)
  | .error _, .ok _ => .isFalse (by intro hc; cases hc)

/- ### Basic lemmas about `pymax` and `argmaxIdx` -/

theorem le_pymax {l : List ℚ} {x : ℚ} (hx : x ∈ l) : x ≤ pymax l := by
  induction l with
  | nil => cases hx
  | cons a t ih =>
    cases t with
    | nil =>
      simp only [List.mem_singleton] at hx
      simp [pymax, hx]
    | cons b t2 =>
      rcases List.mem_cons.mp hx with h | h
      · simp [pymax, h, le_max_iff]
      · have := ih h
        simp only [pymax]
        exact le_max_of_le_right this

theorem pymax_mem {l : List ℚ} (h : l ≠ []) : pymax l ∈ l := by
  induction l with
  | nil => exact absurd rfl h
  | cons a t ih =>
    cases t with
    | nil => simp [pymax]
    | cons b t2 =>
      simp only [pymax]
      rcases max_cases a (pymax (b :: t2)) with ⟨he, _⟩ | ⟨he, _⟩
      · rw [he]; exact List.mem_cons_self a _
      · rw [he]; exact List.mem_cons_of_mem a (ih (by simp))

theorem pymax_le {l : List ℚ} {b : ℚ} (h : l ≠ [])
    (hb : ∀ x ∈ l, x ≤ b) : pymax l ≤ b :=
  hb _ (pymax_mem h)

theorem pymax_eq_zero_of_all_zero {l : List ℚ} (h : l ≠ [])
    (hz : ∀ x ∈ l, x = 0) : pymax l = 0 := by
  have h1 : pymax l ≤ 0 := pymax_le h (fun x hx => le_of_eq (hz x hx))
  have h2 : (0 : ℚ) ≤ pymax l := by
    obtain ⟨x, hx⟩ := List.exists_mem_of_ne_nil l h
    calc (0 : ℚ) = x := (hz x hx).symm
    _ ≤ pymax l := le_pymax hx
  exact le_antisymm h1 h2

theorem argmaxIdx_lt_length {l : List ℚ} (h : l ≠ []) :
    argmaxIdx l < l.length := by
  induction l with
  | nil => exact absurd rfl h
  | cons a t ih =>
    cases t with
    | nil => simp [argmaxIdx]
    | cons b t2 =>
      simp only [argmaxIdx]
      by_cases hc : a < pymax (b :: t2)
      · rw [if_pos hc]
        have := ih (by simp)
        simpa using Nat.succ_lt_succ this
      · rw [if_neg hc]; simp

theorem getD_argmaxIdx {l : List ℚ} (h : l ≠ []) :
    l.getD (argmaxIdx l) 0 = pymax l := by
  induction l with
  | nil => exact absurd rfl h
  | cons a t ih =>
    cases t with
    | nil => simp [argmaxIdx, pymax]
    | cons b t2 =>
      simp only [argmaxIdx, pymax]
      by_cases hc : a < pymax (b :: t2)
      · rw [if_pos hc]
        rw [List.getD_cons_succ, ih (by simp)]
        exact (max_eq_right (le_of_lt hc)).symm
      · rw [if_neg hc]
        rw [List.getD_cons_zero]
        exact (max_eq_left (le_of_not_lt hc)).symm

theorem argmaxIdx_first {l : List ℚ} {j : Nat} (hj : j < argmaxIdx l) :
    l.getD j 0 < pymax l := by
  induction l generalizing j with
  | nil => simp [argmaxIdx] at hj
  | cons a t ih =>
    cases t with
    | nil => simp [argmaxIdx] at hj
    | cons b t2 =>
      simp only [argmaxIdx] at hj
      by_cases hc : a < pymax (b :: t2)
      · rw [if_pos hc] at hj
        simp only [pymax]
        rw [max_eq_right (le_of_lt hc)]
        cases j with
        | zero => simpa using hc
        | succ j2 =>
          rw [List.getD_cons_succ]
          exact ih (Nat.lt_of_succ_lt_succ hj)
      · rw [if_neg hc] at hj
        exact absurd hj (Nat.not_lt_zero j)

/- ### Basic lemmas about `ecdfEval` -/

theorem ecdfEval_nonneg (s : List ℚ) (x : ℚ) : 0 ≤ ecdfEval s x := by
  unfold ecdfEval
  positivity

theorem ecdfEval_le_one (s : List ℚ) (x : ℚ) : ecdfEval s x ≤ 1 := by
  unfold ecdfEval
  rcases List.eq_nil_or_concat s with rfl | _
  · simp
  · have hlen : 0 < (s.length : ℚ) := by
      have : 0 < s.length := by
        cases s with
        | nil => simp_all
        | cons a t => simp
      exact_mod_cast this
    rw [div_le_one hlen]
    exact_mod_cast List.countP_le_length _

theorem ecdfEval_eq_one {s : List ℚ} {x : ℚ} (h : s ≠ [])
    (hall : ∀ v ∈ s, v ≤ x) : ecdfEval s x = 1 := by
  unfold ecdfEval
  have hc : s.countP (fun v => decide (v ≤ x)) = s.length := by
    apply List.countP_eq_length.mpr
    intro v hv
    simpa using hall v hv
  rw [hc]
  have : (s.length : ℚ) ≠ 0 := by
    have : 0 < s.length := List.length_pos.mpr h
    positivity
  field_simp

theorem ecdfEval_eq_zero {s : List ℚ} {x : ℚ}
    (hall : ∀ v ∈ s, x < v) : ecdfEval s x = 0 := by
  unfold ecdfEval
  have hc : s.countP (fun v => decide (v ≤ x)) = 0 := by
    apply List.countP_eq_zero.mpr
    intro v hv
    simpa using hall v hv
  rw [hc]
  simp

theorem ecdfEval_perm {s t : List ℚ} (h : s.Perm t) (x : ℚ) :
    ecdfEval s x = ecdfEval t x := by
  unfold ecdfEval
  rw [h.countP_eq, h.length_eq]

/- ### Lemmas about the pooled evaluation grid -/

theorem sortQ_perm (l : List ℚ) : (sortQ l).Perm l :=
  List.mergeSort_perm l _

theorem sortQ_sorted (l : List ℚ) : (sortQ l).Sorted (· ≤ ·) :=
  List.sorted_mergeSort' l

theorem sortQ_ne_nil {l : List ℚ} (h : l ≠ []) : sortQ l ≠ [] := by
  intro hc
  exact h (List.Perm.eq_nil ((sortQ_perm l).symm.trans (hc ▸ List.Perm.refl _)))

theorem ksGrid_perm (data1 data2 : List ℚ) :
    (ksGrid data1 data2).Perm (data1 ++ data2) := by
  unfold ksGrid
  exact (sortQ_perm _).trans
    (List.Perm.append (sortQ_perm data1) (sortQ_perm data2))

theorem ksGrid_ne_nil {data1 data2 : List ℚ} (h1 : data1 ≠ []) :
    ksGrid data1 data2 ≠ [] := by
  intro hc
  have hnil : data1 ++ data2 = [] := by
    have := ksGrid_perm data1 data2
    rw [hc] at this
    exact this.symm.eq_nil
  rcases List.append_eq_nil.mp hnil with ⟨ha, _⟩
  exact h1 ha

/-- At the maximum of the pooled grid both ECDFs evaluate to 1, so the
directional difference list contains a 0 and its maximum is `≥ 0`. -/
theorem pymax_ksDiff_nonneg {a b grid : List ℚ} (ha : a ≠ []) (hb : b ≠ [])
    (hperm : grid.Perm (a ++ b)) : 0 ≤ pymax (ksDiff a b grid) := by
  have hgrid : grid ≠ [] := by
    intro hc
    rw [hc] at hperm
    rcases List.append_eq_nil.mp hperm.symm.eq_nil with ⟨h1, _⟩
    exact ha h1
  have hm : pymax grid ∈ grid := pymax_mem hgrid
  have hmem_a : ∀ v ∈ a, v ≤ pymax grid := by
    intro v hv
    exact le_pymax (hperm.mem_iff.mpr (List.mem_append.mpr (Or.inl hv)))
  have hmem_b : ∀ v ∈ b, v ≤ pymax grid := by
    intro v hv
    exact le_pymax (hperm.mem_iff.mpr (List.mem_append.mpr (Or.inr hv)))
  have hzero : (0 : ℚ) ∈ ksDiff a b grid := by
    unfold ksDiff
    refine List.mem_map.mpr ⟨pymax grid, hm, ?_⟩
    rw [ecdfEval_eq_one ha hmem_a, ecdfEval_eq_one hb hmem_b]
    ring
  exact le_pymax hzero

theorem raw_ks_test_eq_branch1 (data1 data2 : List ℚ) (alternative : String)
    (h : alternative = "1 less than 2" ∨ alternative = "2 greater than 1") :
    raw_ks_test data1 data2 alternative =
      .ok ⟨pymax (ksDiff (sortQ data1) (sortQ data2) (ksGrid data1 data2)),
           (ksGrid data1 data2).getD
             (argmaxIdx (ksDiff (sortQ data1) (sortQ data2)
               (ksGrid data1 data2))) 0⟩ := by
  unfold raw_ks_test
  rw [if_pos h]

theorem raw_ks_test_eq_branch2 (data1 data2 : List ℚ) (alternative : String)
    (h : alternative = "2 less than 1" ∨ alternative = "1 greater than 2")
    (h1 : ¬(alternative = "1 less than 2" ∨ alternative = "2 greater than 1")) :
    raw_ks_test data1 data2 alternative =
      .ok ⟨pymax (ksDiff (sortQ data2) (sortQ data1) (ksGrid data1 data2)),
           (ksGrid data1 data2).getD
             (argmaxIdx (ksDiff (sortQ data2) (sortQ data1)
               (ksGrid data1 data2))) 0⟩ := by
  unfold raw_ks_test
  rw [if_neg h1, if_pos h]

/-- On a recognized alternative, `raw_ks_test` always produces a result,
and for non-empty samples the statistic is non-negative. -/
theorem raw_ks_ok_nonneg (data1 data2 : List ℚ) (alternative : String)
    (h1 : data1 ≠ []) (h2 : data2 ≠ [])
    (ha : recognizedAlternative alternative) :
    ∃ r : KSResult, raw_ks_test data1 data2 alternative = .ok r ∧
      0 ≤ r.stat := by
  have hs1 : sortQ data1 ≠ [] := sortQ_ne_nil h1
  have hs2 : sortQ data2 ≠ [] := sortQ_ne_nil h2
  have hp12 : (ksGrid data1 data2).Perm (sortQ data1 ++ sortQ data2) :=
    sortQ_perm _
  have hp21 : (ksGrid data1 data2).Perm (sortQ data2 ++ sortQ data1) :=
    hp12.trans List.perm_append_comm
  rcases ha with h | h | h | h
  · refine ⟨_, raw_ks_test_eq_branch1 data1 data2 alternative (Or.inl h), ?_⟩
    exact pymax_ksDiff_nonneg hs1 hs2 hp12
  · refine ⟨_, raw_ks_test_eq_branch1 data1 data2 alternative (Or.inr h), ?_⟩
    exact pymax_ksDiff_nonneg hs1 hs2 hp12
  · refine ⟨_, raw_ks_test_eq_branch2 data1 data2 alternative (Or.inl h)
      (by subst h; decide), ?_⟩
    exact pymax_ksDiff_nonneg hs2 hs1 hp21
  · refine ⟨_, raw_ks_test_eq_branch2 data1 data2 alternative (Or.inr h)
      (by subst h; decide), ?_⟩
    exact pymax_ksDiff_nonneg hs2 hs1 hp21

/-- C1: calling `raw_ks_test` with a direction token that is not one of the
four recognized alternatives halts the computation with
`InvalidAlternative`: no result (partial or otherwise) is produced and no
default direction is substituted. -/
theorem C1_invalid_alternative_aborts (data1 data2 : List ℚ)
    (alternative : String) (h1 : data1 ≠ []) (h2 : data2 ≠ [])
    (h : ¬ recognizedAlternative alternative) :
    raw_ks_test data1 data2 alternative =
      .error KSError.invalidAlternative := by
  unfold recognizedAlternative at h
  push_neg at h
  obtain ⟨e1, e2, e3, e4⟩ := h
  unfold raw_ks_test
  rw [if_neg (by tauto), if_neg (by tauto)]

/-- Witness for C1 at a concrete unrecognized token. -/
theorem C1_witness :
    raw_ks_test [0] [1] "less" = .error KSError.invalidAlternative :=
  C1_invalid_alternative_aborts [0] [1] "less" (by decide) (by decide)
    (by decide)

/-- C3: for non-empty samples and any recognized direction, the statistic
returned by `raw_ks_test` is non-negative (the pooled grid contains the
pooled maximum, where both ECDFs equal 1 and the difference is 0). -/
theorem C3_stat_nonneg (data1 data2 : List ℚ) (alternative : String)
    (h1 : data1 ≠ []) (h2 : data2 ≠ [])
    (ha : recognizedAlternative alternative) :
    ∃ r : KSResult, raw_ks_test data1 data2 alternative = .ok r ∧
      0 ≤ r.stat :=
  raw_ks_ok_nonneg data1 data2 alternative h1 h2 ha

/-- Witness for C3 on concrete samples. -/
theorem C3_witness :
    ∃ r : KSResult, raw_ks_test [0, 2] [1] "1 less than 2" = .ok r ∧
      0 ≤ r.stat :=
  C3_stat_nonneg [0, 2] [1] "1 less than 2" (by decide) (by decide)
    (by decide)

/- ### Further helper lemmas for the statistic claims -/

theorem pymax_eq_of_mem_of_le {l : List ℚ} {m : ℚ} (hm : m ∈ l)
    (hb : ∀ x ∈ l, x ≤ m) : pymax l = m :=
  le_antisymm (pymax_le (List.ne_nil_of_mem hm) hb) (le_pymax hm)

theorem ksDiff_ne_nil {a b grid : List ℚ} (h : grid ≠ []) :
    ksDiff a b grid ≠ [] := by
  unfold ksDiff
  simpa using h

theorem ksDiff_length (a b grid : List ℚ) :
    (ksDiff a b grid).length = grid.length := by
  unfold ksDiff
  simp

/-- C4: with both samples equal, the two ECDFs coincide, the directional
difference is 0 at every grid point, and the statistic is exactly 0, for
any recognized direction. -/
theorem C4_identity_stat_zero (S : List ℚ) (alternative : String)
    (hS : S ≠ []) (ha : recognizedAlternative alternative) :
    ∃ r : KSResult, raw_ks_test S S alternative = .ok r ∧ r.stat = 0 := by
  have hgrid : ksGrid S S ≠ [] := ksGrid_ne_nil hS
  have hzero : ∀ x ∈ ksDiff (sortQ S) (sortQ S) (ksGrid S S), x = 0 := by
    intro x hx
    rcases List.mem_map.mp hx with ⟨y, _, he⟩
    rw [← he]
    ring
  have hstat : pymax (ksDiff (sortQ S) (sortQ S) (ksGrid S S)) = 0 :=
    pymax_eq_zero_of_all_zero (ksDiff_ne_nil hgrid) hzero
  rcases ha with h | h | h | h
  · exact ⟨_, raw_ks_test_eq_branch1 S S alternative (Or.inl h), hstat⟩
  · exact ⟨_, raw_ks_test_eq_branch1 S S alternative (Or.inr h), hstat⟩
  · exact ⟨_, raw_ks_test_eq_branch2 S S alternative (Or.inl h)
      (by subst h; decide), hstat⟩
  · exact ⟨_, raw_ks_test_eq_branch2 S S alternative (Or.inr h)
      (by subst h; decide), hstat⟩

/-- Witness for C4 on a concrete sample, both directions. -/
theorem C4_witness :
    (∃ r : KSResult, raw_ks_test [3, 1] [3, 1] "1 less than 2" = .ok r ∧
      r.stat = 0) ∧
    (∃ r : KSResult, raw_ks_test [3, 1] [3, 1] "1 greater than 2" = .ok r ∧
      r.stat = 0) :=
  ⟨C4_identity_stat_zero [3, 1] "1 less than 2" (by decide) (by decide),
   C4_identity_stat_zero [3, 1] "1 greater than 2" (by decide) (by decide)⟩

/-- The directional difference list never exceeds 1 pointwise. -/
theorem ksDiff_le_one {a : List ℚ} (b grid : List ℚ) :
    ∀ x ∈ ksDiff a b grid, x ≤ 1 := by
  intro x hx
  rcases List.mem_map.mp hx with ⟨y, _, he⟩
  rw [← he]
  have h1 := ecdfEval_le_one a y
  have h2 := ecdfEval_nonneg b y
  linarith

/-- The directional difference list contains 0 whenever the grid holds all
values of both samples: at the grid maximum both ECDFs are 1. -/
theorem zero_mem_ksDiff {a b grid : List ℚ} (ha : a ≠ []) (hb : b ≠ [])
    (hperm : grid.Perm (a ++ b)) : (0 : ℚ) ∈ ksDiff a b grid := by
  have hgrid : grid ≠ [] := by
    intro hc
    rw [hc] at hperm
    rcases List.append_eq_nil.mp hperm.symm.eq_nil with ⟨h1, _⟩
    exact ha h1
  refine List.mem_map.mpr ⟨pymax grid, pymax_mem hgrid, ?_⟩
  have hone_a : ecdfEval a (pymax grid) = 1 := by
    apply ecdfEval_eq_one ha
    intro v hv
    exact le_pymax (hperm.mem_iff.mpr (List.mem_append.mpr (Or.inl hv)))
  have hone_b : ecdfEval b (pymax grid) = 1 := by
    apply ecdfEval_eq_one hb
    intro v hv
    exact le_pymax (hperm.mem_iff.mpr (List.mem_append.mpr (Or.inr hv)))
  rw [hone_a, hone_b]
  ring

/-- When every value of `a` is strictly below every value of `b`, the
difference `F_b − F_a` is pointwise `≤ 0`. -/
theorem ksDiff_le_zero_of_sep {a b : List ℚ} (grid : List ℚ)
    (ha : a ≠ []) (hlt : ∀ x ∈ a, ∀ y ∈ b, x < y) :
    ∀ x ∈ ksDiff b a grid, x ≤ 0 := by
  intro x hx
  rcases List.mem_map.mp hx with ⟨y, _, he⟩
  rw [← he]
  by_cases hc : ∃ v ∈ b, v ≤ y
  · rcases hc with ⟨v, hv, hvy⟩
    have hA1 : ecdfEval a y = 1 := by
      apply ecdfEval_eq_one ha
      intro w hw
      exact le_of_lt (lt_of_lt_of_le (hlt w hw v hv) hvy)
    have := ecdfEval_le_one b y
    rw [hA1]
    linarith
  · push_neg at hc
    have hB0 : ecdfEval b y = 0 := ecdfEval_eq_zero hc
    have := ecdfEval_nonneg a y
    rw [hB0]
    linarith

/-- C6: when every value of A is strictly below every value of B, testing
`A` against `B` in the `1 less than 2` direction yields statistic exactly
1, and testing `B` against `A` in the same direction yields exactly 0. -/
theorem C6_disjoint_extremes (A B : List ℚ) (hA : A ≠ []) (hB : B ≠ [])
    (hlt : ∀ a ∈ A, ∀ b ∈ B, a < b) :
    (∃ r : KSResult, raw_ks_test A B "1 less than 2" = .ok r ∧
      r.stat = 1) ∧
    (∃ r : KSResult, raw_ks_test B A "1 less than 2" = .ok r ∧
      r.stat = 0) := by
  have hsA : sortQ A ≠ [] := sortQ_ne_nil hA
  have hsB : sortQ B ≠ [] := sortQ_ne_nil hB
  have hltS : ∀ a ∈ sortQ A, ∀ b ∈ sortQ B, a < b := by
    intro a ha b hb
    exact hlt a ((sortQ_perm A).mem_iff.mp ha) b ((sortQ_perm B).mem_iff.mp hb)
  constructor
  · refine ⟨_, raw_ks_test_eq_branch1 A B "1 less than 2" (Or.inl rfl), ?_⟩
    -- the statistic is attained at the maximum of A, where F_A = 1, F_B = 0
    have hmA : pymax (sortQ A) ∈ ksGrid A B := by
      apply (ksGrid_perm A B).mem_iff.mpr
      apply List.mem_append.mpr
      exact Or.inl ((sortQ_perm A).mem_iff.mp (pymax_mem hsA))
    have hone : (1 : ℚ) ∈ ksDiff (sortQ A) (sortQ B) (ksGrid A B) := by
      refine List.mem_map.mpr ⟨pymax (sortQ A), hmA, ?_⟩
      have hFA : ecdfEval (sortQ A) (pymax (sortQ A)) = 1 :=
        ecdfEval_eq_one hsA (fun v hv => le_pymax hv)
      have hFB : ecdfEval (sortQ B) (pymax (sortQ A)) = 0 := by
        apply ecdfEval_eq_zero
        intro v hv
        exact hltS _ (pymax_mem hsA) v hv
      rw [hFA, hFB]
      ring
    exact pymax_eq_of_mem_of_le hone (ksDiff_le_one (sortQ B) (ksGrid A B))
  · refine ⟨_, raw_ks_test_eq_branch1 B A "1 less than 2" (Or.inl rfl), ?_⟩
    -- here F_B − F_A is pointwise ≤ 0 and reaches 0 at the grid maximum
    have hperm : (ksGrid B A).Perm (sortQ B ++ sortQ A) := sortQ_perm _
    have hzero : (0 : ℚ) ∈ ksDiff (sortQ B) (sortQ A) (ksGrid B A) :=
      zero_mem_ksDiff hsB hsA hperm
    exact pymax_eq_of_mem_of_le hzero
      (ksDiff_le_zero_of_sep (ksGrid B A) hsA hltS)

/-- Witness for C6 on concrete disjoint samples. -/
theorem C6_witness :
    (∃ r : KSResult, raw_ks_test [0, 1] [2, 3] "1 less than 2" = .ok r ∧
      r.stat = 1) ∧
    (∃ r : KSResult, raw_ks_test [2, 3] [0, 1] "1 less than 2" = .ok r ∧
      r.stat = 0) :=
  C6_disjoint_extremes [0, 1] [2, 3] (by decide) (by decide) (by decide)

theorem ksGrid_comm (A B : List ℚ) : ksGrid A B = ksGrid B A :=
  List.eq_of_perm_of_sorted
    ((ksGrid_perm A B).trans
      (List.perm_append_comm.trans (ksGrid_perm B A).symm))
    (sortQ_sorted _) (sortQ_sorted _)

/-- C7: swapping both the argument order and the direction yields the same
statistic — the grid is the same pooled multiset sorted either way, and
both calls compute the maximum of the very same difference list. -/
theorem C7_direction_swap (A B : List ℚ) (hA : A ≠ []) (hB : B ≠ []) :
    ∃ r1 r2 : KSResult, raw_ks_test A B "1 less than 2" = .ok r1 ∧
      raw_ks_test B A "1 greater than 2" = .ok r2 ∧ r1.stat = r2.stat := by
  refine ⟨_, _, raw_ks_test_eq_branch1 A B _ (Or.inl rfl),
    raw_ks_test_eq_branch2 B A _ (Or.inr rfl) (by decide), ?_⟩
  show pymax (ksDiff (sortQ A) (sortQ B) (ksGrid A B)) =
    pymax (ksDiff (sortQ A) (sortQ B) (ksGrid B A))
  rw [ksGrid_comm A B]

/-- Witness for C7 on concrete samples. -/
theorem C7_witness :
    ∃ r1 r2 : KSResult, raw_ks_test [0, 2] [1] "1 less than 2" = .ok r1 ∧
      raw_ks_test [1] [0, 2] "1 greater than 2" = .ok r2 ∧
      r1.stat = r2.stat :=
  C7_direction_swap [0, 2] [1] (by decide) (by decide)

theorem getD_le_pymax {l : List ℚ} {j : Nat} (hj : j < l.length) :
    l.getD j 0 ≤ pymax l := by
  have hm : l.getD j 0 ∈ l := by
    rw [List.getD_eq_getElem l 0 hj]
    exact List.getElem_mem hj
  exact le_pymax hm

/-- C8: the reported location is the grid point at the first index whose
directional difference attains the maximum: the difference there equals
the statistic, every grid point is `≤` the statistic, and every earlier
grid point is strictly below it (stable argmax over the ascending grid). -/
theorem C8_stable_argmax (data1 data2 : List ℚ) (alternative : String)
    (h1 : data1 ≠ []) (h2 : data2 ≠ [])
    (ha : recognizedAlternative alternative) :
    ∃ r : KSResult, raw_ks_test data1 data2 alternative = .ok r ∧
      ∃ i : Nat, i < (ksGrid data1 data2).length ∧
        r.location = (ksGrid data1 data2).getD i 0 ∧
        (dirKsDiff data1 data2 alternative).getD i 0 = r.stat ∧
        (∀ j < (dirKsDiff data1 data2 alternative).length,
          (dirKsDiff data1 data2 alternative).getD j 0 ≤ r.stat) ∧
        (∀ j < i, (dirKsDiff data1 data2 alternative).getD j 0 < r.stat) := by
  have hgrid : ksGrid data1 data2 ≠ [] := ksGrid_ne_nil h1
  have core : ∀ diff : List ℚ,
      diff.length = (ksGrid data1 data2).length → diff ≠ [] →
      ∃ i : Nat, i < (ksGrid data1 data2).length ∧
        (ksGrid data1 data2).getD (argmaxIdx diff) 0 =
          (ksGrid data1 data2).getD i 0 ∧
        diff.getD i 0 = pymax diff ∧
        (∀ j < diff.length, diff.getD j 0 ≤ pymax diff) ∧
        (∀ j < i, diff.getD j 0 < pymax diff) :=
    fun diff hlen hne =>
      ⟨argmaxIdx diff, hlen ▸ argmaxIdx_lt_length hne, rfl,
       getD_argmaxIdx hne, fun _ hj => getD_le_pymax hj,
       fun _ hj => argmaxIdx_first hj⟩
  rcases ha with h | h | h | h
  · subst h
    have hdir : dirKsDiff data1 data2 "1 less than 2" =
        ksDiff (sortQ data1) (sortQ data2) (ksGrid data1 data2) := by
      unfold dirKsDiff
      rw [if_pos (Or.inl rfl)]
    rw [hdir]
    obtain ⟨i, hi, hloc, hattain, hle, hfirst⟩ :=
      core _ (ksDiff_length _ _ _) (ksDiff_ne_nil hgrid)
    exact ⟨_, raw_ks_test_eq_branch1 data1 data2 _ (Or.inl rfl),
      i, hi, hloc, hattain, hle, hfirst⟩
  · subst h
    have hdir : dirKsDiff data1 data2 "2 greater than 1" =
        ksDiff (sortQ data1) (sortQ data2) (ksGrid data1 data2) := by
      unfold dirKsDiff
      rw [if_pos (Or.inr rfl)]
    rw [hdir]
    obtain ⟨i, hi, hloc, hattain, hle, hfirst⟩ :=
      core _ (ksDiff_length _ _ _) (ksDiff_ne_nil hgrid)
    exact ⟨_, raw_ks_test_eq_branch1 data1 data2 _ (Or.inr rfl),
      i, hi, hloc, hattain, hle, hfirst⟩
  · subst h
    have hdir : dirKsDiff data1 data2 "2 less than 1" =
        ksDiff (sortQ data2) (sortQ data1) (ksGrid data1 data2) := by
      unfold dirKsDiff
      rw [if_neg (by decide)]
    rw [hdir]
    obtain ⟨i, hi, hloc, hattain, hle, hfirst⟩ :=
      core _ (ksDiff_length _ _ _) (ksDiff_ne_nil hgrid)
    exact ⟨_, raw_ks_test_eq_branch2 data1 data2 _ (Or.inl rfl) (by decide),
      i, hi, hloc, hattain, hle, hfirst⟩
  · subst h
    have hdir : dirKsDiff data1 data2 "1 greater than 2" =
        ksDiff (sortQ data2) (sortQ data1) (ksGrid data1 data2) := by
      unfold dirKsDiff
      rw [if_neg (by decide)]
    rw [hdir]
    obtain ⟨i, hi, hloc, hattain, hle, hfirst⟩ :=
      core _ (ksDiff_length _ _ _) (ksDiff_ne_nil hgrid)
    exact ⟨_, raw_ks_test_eq_branch2 data1 data2 _ (Or.inr rfl) (by decide),
      i, hi, hloc, hattain, hle, hfirst⟩

/-- Witness for C8 on concrete samples. -/
theorem C8_witness :
    ∃ r : KSResult, raw_ks_test [5, 7] [6] "1 less than 2" = .ok r ∧
      ∃ i : Nat, i < (ksGrid [5, 7] [6]).length ∧
        r.location = (ksGrid [5, 7] [6]).getD i 0 ∧
        (dirKsDiff [5, 7] [6] "1 less than 2").getD i 0 = r.stat ∧
        (∀ j < (dirKsDiff [5, 7] [6] "1 less than 2").length,
          (dirKsDiff [5, 7] [6] "1 less than 2").getD j 0 ≤ r.stat) ∧
        (∀ j < i, (dirKsDiff [5, 7] [6] "1 less than 2").getD j 0 <
          r.stat) :=
  C8_stable_argmax [5, 7] [6] "1 less than 2" (by decide) (by decide)
    (by decide)

/- ### Lemmas about the resampling calibrator -/

/-- Ratio-preserving, no-replacement iteration: the pool is permuted once,
the first `size1` elements become d1 and the tail becomes d2. -/
theorem bootstrapBody_ratio_noRepl (size1 : Nat) (alternative : String)
    (sh : Nat → List ℚ) :
    bootstrapBody size1 alternative true false none sh =
      match raw_ks_test ((sh 0).take size1) ((sh 0).drop size1)
          alternative with
      | .ok r => .ok r.stat
      | .error _ => .error BootErr.invalidAlternative := rfl

/-- With ratio-preserving disabled and no fixed size, no branch assigns the
working samples and the iteration fails at their first use. -/
theorem bootstrapBody_unresolvable (size1 : Nat) (alternative : String)
    (repl : Bool) (sh : Nat → List ℚ) :
    bootstrapBody size1 alternative false repl none sh =
      .error BootErr.nameError := rfl

/-- Ratio-preserving with replacement: the slice bound of working-sample-B
is an undefined name, so the iteration always fails. -/
theorem bootstrapBody_ratio_repl (size1 : Nat) (alternative : String)
    (bs : Option Nat) (sh : Nat → List ℚ) :
    bootstrapBody size1 alternative true true bs sh =
      .error BootErr.nameError := rfl

theorem bootstrapLoop_all_ok (body : Nat → Except BootErr ℚ) (ref : ℚ)
    (h : ∀ i, ∃ st, body i = .ok st ∧ ref ≤ st) :
    ∀ n, bootstrapLoop body ref n = .ok n := by
  intro n
  induction n with
  | zero => rfl
  | succ m ih =>
    obtain ⟨st, hb, hr⟩ := h m
    unfold bootstrapLoop
    rw [ih, hb]
    simp [hr]

theorem bootstrapLoop_all_error (body : Nat → Except BootErr ℚ) (ref : ℚ)
    (e : BootErr) (h : ∀ i, body i = .error e) :
    ∀ n, 1 ≤ n → bootstrapLoop body ref n = .error e := by
  intro n hn
  induction n with
  | zero => omega
  | succ m ih =>
    cases m with
    | zero =>
      unfold bootstrapLoop
      rw [show bootstrapLoop body ref 0 = .ok 0 from rfl, h 0]
    | succ m2 =>
      unfold bootstrapLoop
      rw [ih (by omega)]

/-- C5: calibrating with `data1 = data2`, reference 0, ratio-preserving
mode and no replacement counts every iteration (each resampled statistic
is `≥ 0`), so the p-value is exactly 1, for every positive iteration count
and every permutation oracle. -/
theorem C5_self_calibration (S : List ℚ) (alternative : String)
    (nloop : Int) (sh : Nat → Nat → List ℚ) (hS : S ≠ [])
    (ha : recognizedAlternative alternative) (hn : 0 < nloop)
    (hsh : ∀ i j, (sh i j).Perm (pooled S S)) :
    bootstrap_pvalue S S 0 alternative nloop true false none sh =
      .ok 1 := by
  have hlenS : 0 < S.length := List.length_pos.mpr hS
  have hbody : ∀ i, ∃ st,
      bootstrapBody S.length alternative true false none (sh i) = .ok st ∧
      (0 : ℚ) ≤ st := by
    intro i
    have hlen : (sh i 0).length = 2 * S.length := by
      have := (hsh i 0).length_eq
      simp only [pooled, List.length_append] at this
      omega
    have hne1 : (sh i 0).take S.length ≠ [] := by
      have : ((sh i 0).take S.length).length = S.length := by
        rw [List.length_take, hlen]
        omega
      intro hc
      rw [hc] at this
      simp at this
      omega
    have hne2 : (sh i 0).drop S.length ≠ [] := by
      have : ((sh i 0).drop S.length).length = S.length := by
        rw [List.length_drop, hlen]
        omega
      intro hc
      rw [hc] at this
      simp at this
      omega
    obtain ⟨r, hr, hstat⟩ := raw_ks_ok_nonneg _ _ alternative hne1 hne2 ha
    refine ⟨r.stat, ?_, hstat⟩
    rw [bootstrapBody_ratio_noRepl, hr]
  unfold bootstrap_pvalue
  rw [bootstrapLoop_all_ok _ _ hbody]
  change (if nloop = 0 then Except.error BootErr.zeroDivisionError
    else Except.ok ((nloop.toNat : ℚ) / (nloop : ℚ))) = Except.ok 1
  rw [if_neg (by omega)]
  have hcast : ((nloop.toNat : ℚ)) = (nloop : ℚ) := by
    have h2 : ((nloop.toNat : ℤ)) = nloop := Int.toNat_of_nonneg (le_of_lt hn)
    exact_mod_cast congrArg (fun z : ℤ => (z : ℚ)) h2
  rw [hcast, div_self]
  intro hc
  have : nloop = 0 := by exact_mod_cast hc
  omega

/-- Witness for C5 at a concrete sample and oracle. -/
theorem C5_witness :
    bootstrap_pvalue [0] [0] 0 "1 less than 2" 1 true false none
      (fun _ _ => [0, 0]) = .ok 1 :=
  C5_self_calibration [0] "1 less than 2" 1 (fun _ _ => [0, 0])
    (by decide) (by decide) (by decide)
    (fun _ _ => List.Perm.refl _)

/-- C2: evaluating the calibrator in ratio-preserving, with-replacement
mode at a concrete input: the branch slices the fresh permutation with the
undefined name `size12`, so the call fails with `NameError` and no
iteration completes (core.py line 201). -/
theorem C2_ratio_replacement_nameError :
    bootstrap_pvalue [0] [1] 0 "1 less than 2" 1 true true none
      (fun _ _ => [0, 1]) = .error BootErr.nameError := rfl

/-- C9 counterexample: a call whose sizing mode is unresolvable
(ratio-preserving disabled, no fixed size) fails with `NameError`, not
`InvalidResamplingPolicy`; and a negative iteration count is not rejected
at all — the call returns p-value 0. -/
theorem C9_counterexample :
    bootstrap_pvalue [0] [1] 0 "1 less than 2" 1 false false none
      (fun _ _ => [0, 1]) = .error BootErr.nameError ∧
    bootstrap_pvalue [0] [1] 0 "1 less than 2" 1 false false none
      (fun _ _ => [0, 1]) ≠ .error BootErr.invalidResamplingPolicy ∧
    bootstrap_pvalue [0] [1] 0 "1 less than 2" (-1) true false none
      (fun _ _ => [0, 1]) = .ok 0 := by
  refine ⟨rfl, by decide, ?_⟩
  show (if (-1 : ℤ) = 0 then Except.error BootErr.zeroDivisionError
    else Except.ok (((0 : ℕ) : ℚ) / ((-1 : ℤ) : ℚ))) = Except.ok 0
  rw [if_neg (by decide)]
  norm_num

/-- C9 amended: the calibrator performs no policy validation: `nloop = 0`
fails with `ZeroDivisionError`, a negative `nloop` is accepted and returns
p-value 0, and an unresolvable sizing mode (ratio-preserving disabled, no
fixed size) fails with `NameError` on the first iteration whenever
`nloop ≥ 1`; `InvalidResamplingPolicy` is never produced. -/
theorem C9_amended_no_policy_validation (data1 data2 : List ℚ) (ref : ℚ)
    (alternative : String) (rr repl : Bool) (bs : Option Nat)
    (sh : Nat → Nat → List ℚ) :
    (bootstrap_pvalue data1 data2 ref alternative 0 rr repl bs sh =
      .error BootErr.zeroDivisionError) ∧
    (∀ nloop : Int, nloop < 0 →
      bootstrap_pvalue data1 data2 ref alternative nloop rr repl bs sh =
        .ok 0) ∧
    (∀ nloop : Int, 0 < nloop →
      bootstrap_pvalue data1 data2 ref alternative nloop false repl none
        sh = .error BootErr.nameError) := by
  refine ⟨?_, ?_, ?_⟩
  · unfold bootstrap_pvalue
    simp [bootstrapLoop]
  · intro nloop hneg
    unfold bootstrap_pvalue
    have h0 : nloop.toNat = 0 := Int.toNat_of_nonpos (le_of_lt hneg)
    rw [h0]
    simp only [bootstrapLoop]
    rw [if_neg (by omega)]
    norm_num
  · intro nloop hpos
    unfold bootstrap_pvalue
    rw [bootstrapLoop_all_error _ _ BootErr.nameError
      (fun i => bootstrapBody_unresolvable _ _ _ _) nloop.toNat (by omega)]

/-- Witness for C9's amended statement at concrete inputs. -/
theorem C9_amended_witness :
    bootstrap_pvalue [0] [1] 0 "1 less than 2" 0 true false none
      (fun _ _ => [0, 1]) = .error BootErr.zeroDivisionError ∧
    bootstrap_pvalue [0] [1] 0 "1 less than 2" (-2) true false none
      (fun _ _ => [0, 1]) = .ok 0 ∧
    bootstrap_pvalue [0] [1] 0 "1 less than 2" 2 false false none
      (fun _ _ => [0, 1]) = .error BootErr.nameError :=
  ⟨(C9_amended_no_policy_validation [0] [1] 0 "1 less than 2" true false
      none (fun _ _ => [0, 1])).1,
   (C9_amended_no_policy_validation [0] [1] 0 "1 less than 2" true false
      none (fun _ _ => [0, 1])).2.1 (-2) (by decide),
   (C9_amended_no_policy_validation [0] [1] 0 "1 less than 2" false false
      none (fun _ _ => [0, 1])).2.2 2 (by decide)⟩

/-- C10: `ks_test` accepts `bootstrap_respect_ratio` but never forwards it
to `bootstrap_pvalue` (core.py line 295), so for any two values of that
argument, with everything else fixed, the returned result is identical —
the calibration always runs with the calibrator's default ratio-preserving
mode. -/
theorem C10_respect_ratio_never_forwarded (data1 data2 : List ℚ)
    (alternative : String) (bootstrap_loops : Int) (r1 r2 : Bool)
    (bootstrap_replacement : Bool) (bootstrap_size : Option Nat)
    (sh : Nat → Nat → List ℚ) :
    ks_test data1 data2 alternative bootstrap_loops r1
        bootstrap_replacement bootstrap_size sh =
      ks_test data1 data2 alternative bootstrap_loops r2
        bootstrap_replacement bootstrap_size sh := rfl
